import Mathlib

/-!
Shallow embedding of the validator core of `ember-argument-types`
(`validators.js` in the `-private` directory of the addon), together with models of the helpers it
imports from `utils.js` (`createContextPath`, `ensureValidator`, `toString`,
`typeOf`), which are modelled from the specification, and of the external
collaborators `get` (property accessor) and `isArray`.
-/

namespace ArgTypes

/-- Model of JavaScript runtime values as finite trees.  Numbers are modelled
as integers plus a separate NaN (the fractional part of doubles plays no role
in the validators); composite values (arrays, objects, functions) carry a
reference identifier `ref` because JavaScript strict equality compares them by
reference, not structurally.  Objects also carry the list of class names of
their prototype chain, used by the `instanceof` check. -/
inductive JSValue : Type where
  | vUndefined : JSValue
  | vNull : JSValue
  | vBool (b : Bool) : JSValue
  | vNaN : JSValue
  | vNum (n : Int) : JSValue
  | vStr (s : String) : JSValue
  | vArr (ref : Nat) (elems : List JSValue) : JSValue
  | vObj (ref : Nat) (classes : List String) (fields : List (String × JSValue)) : JSValue
  | vFun (ref : Nat) (name : String) : JSValue

/-- The JavaScript `typeof` operator (the raw primitive type tag):
`typeof null` is `"object"`, arrays and plain objects are `"object"`. -/
def jsTypeof : JSValue → String
  | .vUndefined => "undefined"
  | .vNull => "object"
  | .vBool _ => "boolean"
  | .vNaN => "number"
  | .vNum _ => "number"
  | .vStr _ => "string"
  | .vArr _ _ => "object"
  | .vObj _ _ _ => "object"
  | .vFun _ _ => "function"

/-- Modelled from the spec: `typeOf` from the missing `utils.js` (§4.2), the
display-oriented kind name used in error messages.  It is finer-grained than
`typeof`: it distinguishes `null` from `object`, arrays from plain objects,
and functions from other values. -/
def typeOf : JSValue → String
  | .vUndefined => "undefined"
  | .vNull => "null"
  | .vBool _ => "boolean"
  | .vNaN => "number"
  | .vNum _ => "number"
  | .vStr _ => "string"
  | .vArr _ _ => "array"
  | .vObj _ _ _ => "object"
  | .vFun _ _ => "function"

mutual

/-- Modelled from the spec: `toString` from the missing `utils.js` (§4.2),
rendering a value for inclusion in an error message: strings are quoted,
functions render as their name, arrays render element-wise in bracket
notation, plain objects as key:value pairs, everything else in its natural
string form.  Total on the finite-tree value model. -/
def toString : JSValue → String
  | .vUndefined => "undefined"
  | .vNull => "null"
  | .vBool b => if b then "true" else "false"
  | .vNaN => "NaN"
  | .vNum n => s!"{n}"
  | .vStr s => "\"" ++ s ++ "\""
  | .vArr _ elems => "[" ++ String.intercalate ", " (toStringList elems) ++ "]"
  | .vObj _ _ fields => "\x7b" ++ String.intercalate ", " (toStringFields fields) ++ "\x7d"
  | .vFun _ name => name

/-- Renders the elements of an array, in order. -/
def toStringList : List JSValue → List String
  | [] => []
  | v :: vs => toString v :: toStringList vs

/-- Renders the fields of an object as key:value strings, in order. -/
def toStringFields : List (String × JSValue) → List String
  | [] => []
  | (k, v) :: fs => (k ++ ":" ++ toString v) :: toStringFields fs

end

/-- JavaScript strict equality (`===`): no coercion, `NaN` is unequal to
everything including itself, composite values compare by reference. -/
def jsStrictEq : JSValue → JSValue → Bool
  | .vUndefined, .vUndefined => true
  | .vNull, .vNull => true
  | .vBool a, .vBool b => a == b
  | .vNum a, .vNum b => a == b
  | .vStr a, .vStr b => a == b
  | .vArr r _, .vArr t _ => r == t
  | .vObj r _ _, .vObj t _ _ => r == t
  | .vFun r _, .vFun t _ => r == t
  | _, _ => false

/-- The SameValueZero comparison used by `Array.prototype.includes`: identical
to strict equality except that `NaN` matches `NaN`. -/
def sameValueZero : JSValue → JSValue → Bool
  | .vNaN, .vNaN => true
  | a, b => jsStrictEq a b

/-- `Array.prototype.includes`, i.e. membership by SameValueZero. -/
def jsIncludes (xs : List JSValue) (v : JSValue) : Bool :=
  xs.any fun a => sameValueZero a v

/-- Model of `isArray` from `@ember/array`: true exactly on array values. -/
def isArray : JSValue → Bool
  | .vArr _ _ => true
  | _ => false

/-- The element list of an array value (the `values[i]` iteration is only
reached after the `isArray` guard). -/
def elemsOf : JSValue → List JSValue
  | .vArr _ elems => elems
  | _ => []

/-- The `instanceof` check, against the prototype-chain class names recorded
on an object value.  A class is modelled by its name. -/
def jsInstanceOf (v : JSValue) (klassName : String) : Bool :=
  match v with
  | .vObj _ classes _ => classes.contains klassName
  | _ => false

/-- Modelled from the spec: the external property accessor `get` (§6) — reads
a named property off an object, returning `undefined` when the property is
absent or the receiver is not an object. -/
def get : JSValue → String → JSValue
  | .vObj _ _ fields, key =>
    match fields.find? (fun p => p.1 == key) with
    | some p => p.2
    | none => .vUndefined
  | _, _ => .vUndefined

/-- Modelled from the spec: `createContextPath` from the missing `utils.js`
(§4.1).  A ContextProducer is immutable and is identified with the path string
it returns when called with no argument, so creating a producer from a base
string is the identity on that string. -/
def createContextPath (base : String) : String := base

/-- Calling a ContextProducer with no argument returns its accumulated path. -/
def contextCall (producer : String) : String := producer

/-- Calling a ContextProducer with a segment returns a new producer whose base
is the old base joined with the segment using `.`, unless the base is empty,
in which case the segment stands alone. -/
def contextExtend (producer segment : String) : String :=
  if producer = "" then segment else producer ++ "." ++ segment

/-- A validator failure value.  Unary validators (type, equality) return a
bare message string; binary validators return the pair
`[message, contextProducer]`. -/
inductive ErrVal : Type where
  | msg (m : String) : ErrVal
  | pair (m : String) (ctx : String) : ErrVal
  deriving DecidableEq, Repr

/-- A thrown JavaScript exception. -/
inductive JSError : Type where
  | typeError (m : String) : JSError
  deriving DecidableEq, Repr

/-- The outcome of invoking a validator: a thrown exception, a returned
failure, or no result (valid). -/
abbrev VResult := Except JSError (Option ErrVal)

/-- A resolved validator function: `(value, contextProducer) → result`. -/
abbrev Validator := JSValue → String → VResult

/-- `createTypeValidator` (validators.js): unary; returns the bare message
string `Expected type ... but received ...` when `typeof value` differs from
the expected type, and nothing otherwise. -/
def createTypeValidator (expectedType : String) (value : JSValue) : Option String :=
  if jsTypeof value ≠ expectedType then
    some ("Expected type " ++ expectedType ++ " but received " ++ typeOf value)
  else
    none

/-- `createEqualityValidator` (validators.js): unary; returns a bare message
string when the value is not strictly equal (`!==`) to the expected value. -/
def createEqualityValidator (expectedValue : JSValue) (value : JSValue) : Option String :=
  if ¬ jsStrictEq value expectedValue then
    some ("Expected value to equal " ++ toString expectedValue ++ " but received " ++ toString value)
  else
    none

/-- `createInstanceOfValidator` (validators.js): binary; returns the pair
`[message, context]` when the value is not an instance of the class.  The
class is modelled by its (non-null) name, so the `klass.name ?? toString(klass)`
fallback always takes the name. -/
def createInstanceOfValidator (klassName : String) (value : JSValue) (context : String) :
    Option ErrVal :=
  if ¬ jsInstanceOf value klassName then
    some (.pair
      ("Expected value to be an instance of " ++ klassName ++ " but received " ++ toString value)
      context)
  else
    none

/-- `createOneOfValidator` (validators.js): binary; succeeds when
`allowedValues.includes(value)` and otherwise returns a pair whose message
pluralizes `one of` only for more than one allowed value and lists the allowed
values rendered by `toString`, comma-separated. -/
def createOneOfValidator (allowedValues : List JSValue) (value : JSValue) (context : String) :
    Option ErrVal :=
  if ¬ jsIncludes allowedValues value then
    some (.pair
      ("Expected the value to be" ++ (if allowedValues.length > 1 then " one of" else "")
        ++ " " ++ String.intercalate ", " (allowedValues.map toString)
        ++ " but received " ++ toString value)
      context)
  else
    none

/-- The field loop of `createShapeValidator`: for each declared key in order,
clone the current context, run the field's resolved validator on the property
read off the value with the path extended by the key, and return the first
failure unmodified. -/
def shapeFieldsLoop : List (String × Validator) → JSValue → String → VResult
  | [], _, _ => .ok none
  | (key, f) :: rest, value, context =>
    match f (get value key) (contextExtend (createContextPath (contextCall context)) key) with
    | .error e => .error e
    | .ok (some err) => .ok (some err)
    | .ok none => shapeFieldsLoop rest value context

/-- The body of `createShapeValidator` (validators.js) over already-resolved
field validators: first runs the resolved `'object'` type check (whose failure
is a bare string, returned as-is), then the `value === null` check (whose
failure is a pair), then the field loop. -/
def shapeCore (fields : List (String × Validator)) : Validator := fun value context =>
  match createTypeValidator "object" value with
  | some m => .ok (some (.msg m))
  | none =>
    if jsStrictEq value .vNull then
      .ok (some (.pair "Expected value to be a non-null object but received null" context))
    else
      shapeFieldsLoop fields value context

/-- The element loop of `createArrayValidator`: validates each element in
index order, cloning the context and extending the path with the numeric
index rendered as a string, returning the first failure unmodified. -/
def arrayElemsLoop (f : Validator) : List JSValue → Nat → String → VResult
  | [], _, _ => .ok none
  | v :: rest, i, context =>
    match f v (contextExtend (createContextPath (contextCall context)) (Nat.repr i)) with
    | .error e => .error e
    | .ok (some err) => .ok (some err)
    | .ok none => arrayElemsLoop f rest (i + 1) context

/-- The body of `createArrayValidator` (validators.js) over an already-resolved
element validator: a non-array value fails with a pair-shaped array-type
error; otherwise the elements are validated in index order. -/
def arrayCore (f : Validator) : Validator := fun values context =>
  if isArray values then
    arrayElemsLoop f (elemsOf values) 0 context
  else
    .ok (some (.pair ("Expected type array but received " ++ typeOf values) context))

/-- The aggregation step of `createUnionOfValidator`: each accumulated error
is destructured as `[error, context]` and rendered as a line
`context() |> error`.  Destructuring a pair yields its components, but
destructuring a bare message string binds `context` to the string's second
character, and the subsequent call `context()` throws a TypeError because a
string is not callable. -/
def aggregateLines : List ErrVal → Except JSError (List String)
  | [] => .ok []
  | .pair m c :: rest =>
    (aggregateLines rest).map fun lines => (contextCall c ++ " |> " ++ m) :: lines
  | .msg _ :: _ => .error (.typeError "context is not a function")

/-- The alternative loop of `createUnionOfValidator`: each resolved
alternative is run on the value with the union's own context; the union
returns nothing as soon as one alternative reports no error, and otherwise
pushes the alternative's error and continues.  After the loop the accumulated
errors are aggregated under the header line, paired with the union's original
context. -/
def unionLoop (value : JSValue) (context : String) :
    List Validator → List ErrVal → VResult
  | [], errors =>
    match aggregateLines errors with
    | .error e => .error e
    | .ok lines =>
      .ok (some (.pair
        ("Expected the value to pass one of the provided validators:\n"
          ++ String.intercalate "\n" lines)
        context))
  | f :: rest, errors =>
    match f value context with
    | .error e => .error e
    | .ok none => .ok none
    | .ok (some err) => unionLoop value context rest (errors ++ [err])

/-- The body of `createUnionOfValidator` (validators.js) over already-resolved
alternatives. -/
def unionCore (alts : List Validator) : Validator := fun value context =>
  unionLoop value context alts []

/-- The declarative validator specification language: a bare type-name string,
a literal value (equality), a nested field mapping (shape), or a validator
function already conforming to the contract — the functions produced by the
instance-of, one-of, array and union constructors. -/
inductive Spec : Type where
  | typeName (t : String) : Spec
  | lit (v : JSValue) : Spec
  | instanceOf (klassName : String) : Spec
  | shape (fields : List (String × Spec)) : Spec
  | arrayOf (elem : Spec) : Spec
  | oneOf (allowed : List JSValue) : Spec
  | unionOf (alts : List Spec) : Spec

mutual

/-- Modelled from the spec: `ensureValidator` from the missing `utils.js`
(§4.3).  Dispatch, in order: a string spec resolves to the type validator, a
function spec is returned as-is (the validator functions produced by the
instance-of, shape, array, one-of and union constructors), a mapping resolves
to the shape validator, and anything else resolves to the equality validator
on the literal.  The dispatch performs no normalization of results: the unary
type and equality validators ignore the context argument and return bare
message strings.  (Resolution of child specs is hoisted out of the composite
loops here; validators are pure, so this does not change behaviour.) -/
def ensureValidator : Spec → Validator
  | .typeName t => fun value _ => .ok ((createTypeValidator t value).map .msg)
  | .lit x => fun value _ => .ok ((createEqualityValidator x value).map .msg)
  | .instanceOf k => fun value context => .ok (createInstanceOfValidator k value context)
  | .oneOf xs => fun value context => .ok (createOneOfValidator xs value context)
  | .shape fs => shapeCore (resolveFields fs)
  | .arrayOf e => arrayCore (ensureValidator e)
  | .unionOf alts => unionCore (resolveList alts)

/-- Resolves each field's spec of a shape, in declaration order. -/
def resolveFields : List (String × Spec) → List (String × Validator)
  | [] => []
  | (k, s) :: rest => (k, ensureValidator s) :: resolveFields rest

/-- Resolves each alternative spec of a union, in order. -/
def resolveList : List Spec → List Validator
  | [] => []
  | s :: rest => ensureValidator s :: resolveList rest

end

/-- `createShapeValidator` (validators.js): the shape constructor applied to a
declarative field mapping. -/
def createShapeValidator (fields : List (String × Spec)) : Validator :=
  shapeCore (resolveFields fields)

/-- `createArrayValidator` (validators.js): the array constructor applied to a
declarative element spec. -/
def createArrayValidator (elem : Spec) : Validator :=
  arrayCore (ensureValidator elem)

/-- `createUnionOfValidator` (validators.js): the union constructor applied to
a list of declarative alternative specs. -/
def createUnionOfValidator (alts : List Spec) : Validator :=
  unionCore (resolveList alts)

/-- The path attached to a returned validation error, when the error is a
pair; `none` when no error was returned or the error is a bare message. -/
def errCtx : VResult → Option String
  | .ok (some (.pair _ c)) => some c
  | _ => none

/-! ### Helper lemmas -/

lemma resolveList_eq (l : List Spec) : resolveList l = l.map ensureValidator := by
  induction l with
  | nil => rfl
  | cons s rest ih => simp [resolveList, ih]

lemma resolveFields_eq (l : List (String × Spec)) :
    resolveFields l = l.map fun p => (p.1, ensureValidator p.2) := by
  induction l with
  | nil => rfl
  | cons p rest ih => cases p; simp [resolveFields, ih]

lemma aggregateLines_pairs (ps : List (String × String)) :
    aggregateLines (ps.map fun p => .pair p.1 p.2)
      = .ok (ps.map fun p => p.2 ++ " |> " ++ p.1) := by
  induction ps with
  | nil => rfl
  | cons p rest ih => simp [aggregateLines, ih, contextCall, Except.map]

lemma unionLoop_first_success (pre : List Validator) (f : Validator) (post : List Validator)
    (errs : List ErrVal) (v : JSValue) (c : String)
    (hpre : ∀ g ∈ pre, ∃ e, g v c = .ok (some e)) (hf : f v c = .ok none) :
    unionLoop v c (pre ++ f :: post) errs = .ok none := by
  induction pre generalizing errs with
  | nil => simp [unionLoop, hf]
  | cons g rest ih =>
    obtain ⟨e, he⟩ := hpre g (by simp)
    simp only [List.cons_append, unionLoop, he]
    exact ih (errs ++ [e]) (fun g hg => hpre g (List.mem_cons_of_mem _ hg))

lemma unionLoop_all_fail_pairs (fs : List Validator) (ps : List (String × String))
    (acc : List ErrVal) (v : JSValue) (c : String)
    (h : fs.map (fun g => g v c) = ps.map fun p => .ok (some (.pair p.1 p.2))) :
    unionLoop v c fs acc = unionLoop v c [] (acc ++ ps.map fun p => .pair p.1 p.2) := by
  induction fs generalizing ps acc with
  | nil =>
    cases ps with
    | nil => simp
    | cons p rest => simp at h
  | cons g rest ih =>
    cases ps with
    | nil => simp at h
    | cons p qs =>
      simp only [List.map_cons, List.cons.injEq] at h
      obtain ⟨h1, h2⟩ := h
      have step : unionLoop v c (g :: rest) acc = unionLoop v c rest (acc ++ [.pair p.1 p.2]) := by
        simp only [unionLoop, h1]
      rw [step, ih qs _ h2]
      congr 1
      simp

lemma shapeCore_guards_pass (fields : List (String × Validator)) (v : JSValue) (c : String)
    (hobj : createTypeValidator "object" v = none)
    (hnull : jsStrictEq v JSValue.vNull = false) :
    shapeCore fields v c = shapeFieldsLoop fields v c := by
  simp [shapeCore, hobj, hnull]

lemma arrayCore_arr (f : Validator) (r : Nat) (elems : List JSValue) (c : String) :
    arrayCore f (JSValue.vArr r elems) c = arrayElemsLoop f elems 0 c := by
  simp [arrayCore, isArray, elemsOf]

lemma shapeFieldsLoop_append (pre : List (String × Validator)) (k : String) (f : Validator)
    (post : List (String × Validator)) (v : JSValue) (c : String) (e : ErrVal)
    (hpre : ∀ p ∈ pre, p.2 (get v p.1) (contextExtend c p.1) = .ok none)
    (hf : f (get v k) (contextExtend c k) = .ok (some e)) :
    shapeFieldsLoop (pre ++ (k, f) :: post) v c = .ok (some e) := by
  induction pre with
  | nil =>
    show (match f (get v k) (contextExtend (createContextPath (contextCall c)) k) with
      | Except.error err => Except.error err
      | Except.ok (some err) => Except.ok (some err)
      | Except.ok none => shapeFieldsLoop post v c) = .ok (some e)
    rw [show contextExtend (createContextPath (contextCall c)) k = contextExtend c k from rfl, hf]
  | cons p rest ih =>
    have hp := hpre p (by simp)
    cases p with
    | mk key g =>
      have hp2 : g (get v key) (contextExtend (createContextPath (contextCall c)) key)
          = .ok none := hp
      show (match g (get v key) (contextExtend (createContextPath (contextCall c)) key) with
        | Except.error err => Except.error err
        | Except.ok (some err) => Except.ok (some err)
        | Except.ok none => shapeFieldsLoop (rest ++ (k, f) :: post) v c) = .ok (some e)
      rw [hp2]
      exact ih fun q hq => hpre q (List.mem_cons_of_mem _ hq)

lemma arrayElemsLoop_append (f : Validator) (pre : List JSValue) (x : JSValue)
    (post : List JSValue) (i : Nat) (c : String) (e : ErrVal)
    (hpre : ∀ j (h : j < pre.length),
      f (pre.get ⟨j, h⟩) (contextExtend c (Nat.repr (i + j))) = .ok none)
    (hx : f x (contextExtend c (Nat.repr (i + pre.length))) = .ok (some e)) :
    arrayElemsLoop f (pre ++ x :: post) i c = .ok (some e) := by
  induction pre generalizing i with
  | nil =>
    have hx0 : f x (contextExtend c (Nat.repr i)) = .ok (some e) := hx
    show (match f x (contextExtend (createContextPath (contextCall c)) (Nat.repr i)) with
      | Except.error err => Except.error err
      | Except.ok (some err) => Except.ok (some err)
      | Except.ok none => arrayElemsLoop f post (i + 1) c) = .ok (some e)
    rw [show contextExtend (createContextPath (contextCall c)) (Nat.repr i)
      = contextExtend c (Nat.repr i) from rfl, hx0]
  | cons a rest ih =>
    have h0 : f a (contextExtend (createContextPath (contextCall c)) (Nat.repr i))
        = .ok none := hpre 0 (by simp)
    show (match f a (contextExtend (createContextPath (contextCall c)) (Nat.repr i)) with
      | Except.error err => Except.error err
      | Except.ok (some err) => Except.ok (some err)
      | Except.ok none => arrayElemsLoop f (rest ++ x :: post) (i + 1) c) = .ok (some e)
    rw [h0]
    apply ih
    · intro j hj
      have hmem : j + 1 < (a :: rest).length := by
        simp only [List.length_cons]
        omega
      have h1 := hpre (j + 1) hmem
      have e1 : i + (j + 1) = (i + 1) + j := by omega
      rw [e1] at h1
      exact h1
    · have e2 : i + (a :: rest).length = (i + 1) + rest.length := by
        simp only [List.length_cons]
        omega
      rw [e2] at hx
      exact hx

/-! ### Claim theorems -/

/-- Claim C1 (evaluation at the failing input): a union-of validator whose
alternatives are the type-name specs `"string"` and `"number"`, applied to
`null` — every alternative fails, each returning a bare message string — does
not return an error result: destructuring a bare string as
`[message, context]` binds `context` to a character and `context()` throws a
TypeError during aggregation. -/
theorem unionOf_string_specs_throws :
    createUnionOfValidator [Spec.typeName "string", Spec.typeName "number"] JSValue.vNull ""
      = .error (.typeError "context is not a function") := by rfl

/-- Claim C2 counterexample: with the single type-name alternative `"number"`
failing on the string value `"x"`, the union-of validator does not return a
combined error at all — it throws a TypeError, because the alternative's
failure is a bare message string. -/
theorem unionOf_single_type_spec_throws :
    createUnionOfValidator [Spec.typeName "number"] (JSValue.vStr "x") "q"
      = .error (.typeError "context is not a function") := by rfl

/-- Claim C2 (amended): for every sequence of validator specs all of whose
resolved alternatives fail on the value with pair-shaped errors
`(message, context)`, the union-of validator returns one combined error whose
message is the aggregation header followed by one line per alternative in the
form `path |> message`, paired with the union's original, un-extended
context. -/
theorem unionOf_allfail_pairs_aggregates (specs : List Spec) (v : JSValue) (c : String)
    (ps : List (String × String))
    (h : specs.map (fun s => ensureValidator s v c)
      = ps.map fun p => .ok (some (.pair p.1 p.2))) :
    createUnionOfValidator specs v c
      = .ok (some (.pair
          ("Expected the value to pass one of the provided validators:\n"
            ++ String.intercalate "\n" (ps.map fun p => p.2 ++ " |> " ++ p.1))
          c)) := by
  have h1 : createUnionOfValidator specs v c = unionLoop v c (resolveList specs) [] := rfl
  rw [h1, resolveList_eq]
  have hmap : (specs.map ensureValidator).map (fun g => g v c)
      = ps.map fun p => Except.ok (some (ErrVal.pair p.1 p.2)) := by
    rw [List.map_map]
    exact h
  rw [unionLoop_all_fail_pairs _ ps [] v c hmap]
  simp only [List.nil_append, unionLoop, aggregateLines_pairs]

/-- Claim C2 witness: a union of an instance-of alternative and a one-of
alternative, both failing with pair errors on the number 3, aggregates the two
`path |> message` lines under the header at the union's own context `"p"`. -/
theorem unionOf_allfail_pairs_aggregates_witness :
    createUnionOfValidator [Spec.instanceOf "Foo", Spec.oneOf [JSValue.vNum 2]]
        (JSValue.vNum 3) "p"
      = .ok (some (.pair
          ("Expected the value to pass one of the provided validators:\n"
            ++ String.intercalate "\n"
              (([("Expected value to be an instance of Foo but received 3", "p"),
                 ("Expected the value to be 2 but received 3", "p")] :
                List (String × String)).map fun p => p.2 ++ " |> " ++ p.1))
          "p")) :=
  unionOf_allfail_pairs_aggregates _ _ _ _ (by rfl)

/-- Claim C3 counterexample: the resolved type validator, detecting a
mismatch, returns a bare message string, not a (message, contextProducer)
pair. -/
theorem typeValidator_error_is_bare_message :
    ensureValidator (Spec.typeName "string") (JSValue.vNum 42) "ctx"
      = .ok (some (.msg "Expected type string but received number")) := by rfl

/-- Claim C3 (amended): mismatch results per validator: the instance-of and
one-of validators return (message, context) pairs; the type and equality
validators return only a bare message string; the shape and array composites
pass a failing child's error up unmodified. -/
theorem error_result_shapes :
    (∀ t v c e, ensureValidator (Spec.typeName t) v c = .ok (some e) → ∃ m, e = .msg m) ∧
    (∀ x v c e, ensureValidator (Spec.lit x) v c = .ok (some e) → ∃ m, e = .msg m) ∧
    (∀ k v c e, ensureValidator (Spec.instanceOf k) v c = .ok (some e) → ∃ m, e = .pair m c) ∧
    (∀ xs v c e, ensureValidator (Spec.oneOf xs) v c = .ok (some e) → ∃ m, e = .pair m c) ∧
    (∀ k s rest v c e, createTypeValidator "object" v = none →
      jsStrictEq v JSValue.vNull = false →
      ensureValidator s (get v k) (contextExtend c k) = .ok (some e) →
      createShapeValidator ((k, s) :: rest) v c = .ok (some e)) ∧
    (∀ s r x rest c e, ensureValidator s x (contextExtend c (Nat.repr 0)) = .ok (some e) →
      createArrayValidator s (JSValue.vArr r (x :: rest)) c = .ok (some e)) := by
  refine ⟨?_, ?_, ?_, ?_, ?_, ?_⟩
  · intro t v c e h
    have hu : ensureValidator (Spec.typeName t) v c
        = .ok ((createTypeValidator t v).map .msg) := rfl
    rw [hu] at h
    cases hc : createTypeValidator t v with
    | none => rw [hc] at h; simp at h
    | some m =>
      rw [hc] at h
      injection h with h1
      injection h1 with h2
      exact ⟨m, h2.symm⟩
  · intro x v c e h
    have hu : ensureValidator (Spec.lit x) v c
        = .ok ((createEqualityValidator x v).map .msg) := rfl
    rw [hu] at h
    cases hc : createEqualityValidator x v with
    | none => rw [hc] at h; simp at h
    | some m =>
      rw [hc] at h
      injection h with h1
      injection h1 with h2
      exact ⟨m, h2.symm⟩
  · intro k v c e h
    have hu : ensureValidator (Spec.instanceOf k) v c
        = .ok (createInstanceOfValidator k v c) := rfl
    rw [hu] at h
    by_cases hi : jsInstanceOf v k = true
    · simp [createInstanceOfValidator, hi] at h
    · simp only [createInstanceOfValidator, hi, not_false_eq_true, if_pos] at h
      injection h with h1
      injection h1 with h2
      exact ⟨_, h2.symm⟩
  · intro xs v c e h
    have hu : ensureValidator (Spec.oneOf xs) v c
        = .ok (createOneOfValidator xs v c) := rfl
    rw [hu] at h
    by_cases hi : jsIncludes xs v = true
    · simp [createOneOfValidator, hi] at h
    · simp only [createOneOfValidator, hi, not_false_eq_true, if_pos] at h
      injection h with h1
      injection h1 with h2
      exact ⟨_, h2.symm⟩
  · intro k s rest v c e hobj hnull hfail
    have h1 : createShapeValidator ((k, s) :: rest) v c
        = shapeCore ((k, ensureValidator s) :: resolveFields rest) v c := rfl
    rw [h1, shapeCore_guards_pass _ _ _ hobj hnull]
    exact shapeFieldsLoop_append [] k (ensureValidator s) (resolveFields rest) v c e
      (by intro p hp; exact absurd hp (List.not_mem_nil p)) hfail
  · intro s r x rest c e hfail
    have h1 : createArrayValidator s (JSValue.vArr r (x :: rest)) c
        = arrayCore (ensureValidator s) (JSValue.vArr r (x :: rest)) c := rfl
    rw [h1, arrayCore_arr]
    exact arrayElemsLoop_append (ensureValidator s) [] x rest 0 c e
      (by intro j hj; exact absurd hj (Nat.not_lt_zero j)) hfail

/-- Claim C3 witness: a shape whose single field `b` (holding `null`) fails a
type-name spec returns that child's bare-string error unmodified. -/
theorem error_result_shapes_witness :
    createShapeValidator [("b", Spec.typeName "string")]
        (JSValue.vObj 1 [] [("b", JSValue.vNull)]) "w"
      = .ok (some (.msg "Expected type string but received null")) :=
  error_result_shapes.2.2.2.2.1 "b" (Spec.typeName "string") [] _ "w" _
    (by rfl) (by rfl) (by rfl)

/-- Claim C4 counterexample: the equality validator is not reflexive at NaN:
`NaN !== NaN`, so validating NaN against expected value NaN returns an
error. -/
theorem equalityValidator_nan_not_reflexive :
    createEqualityValidator JSValue.vNaN JSValue.vNaN
      = some "Expected value to equal NaN but received NaN" := by rfl

/-- Claim C4 (amended): the equality validator succeeds exactly on values
strictly equal (`===`) to the expected value, and is therefore reflexive for
every value that is strictly equal to itself — every value except NaN. -/
theorem equalityValidator_reflexive_on_self_equal :
    (∀ x v, createEqualityValidator x v = none ↔ jsStrictEq v x = true) ∧
    (∀ x, x ≠ JSValue.vNaN → createEqualityValidator x x = none) := by
  constructor
  · intro x v
    by_cases h : jsStrictEq v x = true <;> simp [createEqualityValidator, h]
  · intro x hx
    have hxx : jsStrictEq x x = true := by
      cases x <;> first | exact absurd rfl hx | simp [jsStrictEq]
    simp [createEqualityValidator, hxx]

/-- Claim C4 witness: the equality validator succeeds on the number 7 against
itself. -/
theorem equalityValidator_reflexive_on_self_equal_witness :
    createEqualityValidator (JSValue.vNum 7) (JSValue.vNum 7) = none :=
  equalityValidator_reflexive_on_self_equal.2 (JSValue.vNum 7)
    (fun h => JSValue.noConfusion h)

/-- Claim C5 counterexample: with allowed values `[NaN]` and value `NaN` the
one-of validator succeeds although no element of the allowed list is strictly
equal (`===`) to the value. -/
theorem oneOf_nan_member_without_strict_eq :
    createOneOfValidator [JSValue.vNaN] JSValue.vNaN "c" = none
      ∧ ([JSValue.vNaN].any fun a => jsStrictEq a JSValue.vNaN) = false := by
  constructor <;> rfl

/-- Claim C5 (amended): the one-of validator succeeds iff some element of the
allowed values equals the value under SameValueZero (the semantics of
`Array.prototype.includes`): strict equality without coercion, except that NaN
counts as equal to NaN. -/
theorem oneOf_succeeds_iff_sameValueZero :
    (∀ xs v c, createOneOfValidator xs v c = none ↔ ∃ a ∈ xs, sameValueZero a v = true) ∧
    (∀ a b, sameValueZero a b = true
      ↔ (jsStrictEq a b = true ∨ (a = JSValue.vNaN ∧ b = JSValue.vNaN))) := by
  constructor
  · intro xs v c
    have key : createOneOfValidator xs v c = none ↔ jsIncludes xs v = true := by
      by_cases h : jsIncludes xs v = true <;> simp [createOneOfValidator, h]
    rw [key]
    simp [jsIncludes, List.any_eq_true]
  · intro a b
    cases a <;> cases b <;> simp [sameValueZero, jsStrictEq, beq_iff_eq]

/-- Claim C6: the union-of validator tries alternatives in order and returns
no error as soon as one alternative reports no error: whenever every
alternative in `pre` reports some error and `s` reports none, the union over
`pre ++ s :: post` succeeds — for every suffix `post` (later alternatives
cannot affect the result) and however many alternatives failed before `s`. -/
theorem unionOf_short_circuits_on_first_success (pre : List Spec) (s : Spec) (post : List Spec)
    (v : JSValue) (c : String)
    (hpre : ∀ a ∈ pre, ∃ e, ensureValidator a v c = .ok (some e))
    (hs : ensureValidator s v c = .ok none) :
    createUnionOfValidator (pre ++ s :: post) v c = .ok none := by
  have h1 : createUnionOfValidator (pre ++ s :: post) v c
      = unionLoop v c (resolveList (pre ++ s :: post)) [] := rfl
  rw [h1, resolveList_eq, List.map_append, List.map_cons]
  exact unionLoop_first_success _ _ _ [] v c
    (by intro g hg
        obtain ⟨a, ha, rfl⟩ := List.mem_map.1 hg
        exact hpre a ha)
    hs

/-- Claim C6 witness: the alternative `"string"` matches `"x"` after the
failing alternative `"number"`, so the union succeeds regardless of the
trailing alternative `"boolean"`. -/
theorem unionOf_short_circuits_on_first_success_witness :
    createUnionOfValidator
        [Spec.typeName "number", Spec.typeName "string", Spec.typeName "boolean"]
        (JSValue.vStr "x") "" = .ok none :=
  unionOf_short_circuits_on_first_success [Spec.typeName "number"] (Spec.typeName "string")
    [Spec.typeName "boolean"] (JSValue.vStr "x") ""
    (by intro a ha
        have h : a = Spec.typeName "number" := by simpa using ha
        subst h
        exact ⟨.msg "Expected type number but received string", rfl⟩)
    (by rfl)

/-- Claim C7 counterexample: shape spec `{a: "number"}` on value `{a: "x"}`:
the reported error is the bare message of the field's type check, carrying no
path at all — in particular not the path `"a"` the claim requires. -/
theorem shape_first_failure_has_no_path :
    createShapeValidator [("a", Spec.typeName "number")]
        (JSValue.vObj 0 [] [("a", JSValue.vStr "x")]) ""
      = .ok (some (.msg "Expected type number but received string"))
    ∧ errCtx (createShapeValidator [("a", Spec.typeName "number")]
        (JSValue.vObj 0 [] [("a", JSValue.vStr "x")]) "") = none := by
  constructor <;> rfl

/-- Claim C7 (amended): on a non-null object the shape validator returns
exactly the first field failure in declaration order, unmodified, and never
runs the fields after it; the failing field's validator is invoked with the
path extended by that key, so its error carries the extended path only when
that validator is pair-returning — a bare type-name or literal field spec
yields a pathless message. -/
theorem shape_returns_first_field_failure (pre : List (String × Spec)) (k : String) (s : Spec)
    (post : List (String × Spec)) (v : JSValue) (c : String) (e : ErrVal)
    (hobj : createTypeValidator "object" v = none)
    (hnull : jsStrictEq v JSValue.vNull = false)
    (hpre : ∀ p ∈ pre, ensureValidator p.2 (get v p.1) (contextExtend c p.1) = .ok none)
    (hfail : ensureValidator s (get v k) (contextExtend c k) = .ok (some e)) :
    createShapeValidator (pre ++ (k, s) :: post) v c = .ok (some e) := by
  have h1 : createShapeValidator (pre ++ (k, s) :: post) v c
      = shapeCore (resolveFields (pre ++ (k, s) :: post)) v c := rfl
  rw [h1, shapeCore_guards_pass _ _ _ hobj hnull, resolveFields_eq, List.map_append,
    List.map_cons]
  exact shapeFieldsLoop_append _ k (ensureValidator s) _ v c e
    (by intro p hp
        obtain ⟨q, hq, rfl⟩ := List.mem_map.1 hp
        exact hpre q hq)
    hfail

/-- Claim C7 witness: with fields `a` (passing), `b` (failing) and `c` (never
reached), the shape validator on `{a: 1, b: "y"}` reports exactly field `b`'s
error. -/
theorem shape_returns_first_field_failure_witness :
    createShapeValidator
        [("a", Spec.typeName "number"), ("b", Spec.typeName "number"),
         ("c", Spec.typeName "string")]
        (JSValue.vObj 2 [] [("a", JSValue.vNum 1), ("b", JSValue.vStr "y")]) ""
      = .ok (some (.msg "Expected type number but received string")) :=
  shape_returns_first_field_failure [("a", Spec.typeName "number")] "b"
    (Spec.typeName "number") [("c", Spec.typeName "string")] _ "" _
    (by rfl) (by rfl)
    (by intro p hp
        have h : p = ("a", Spec.typeName "number") := by simpa using hp
        subst h
        rfl)
    (by rfl)

/-- Claim C8 counterexample: array spec `"number"` on `[1, 2, "x"]`: the
reported error is the bare message of the element's type check, carrying no
path at all — in particular not the path `"2"` the claim requires. -/
theorem array_first_failure_has_no_path :
    createArrayValidator (Spec.typeName "number")
        (JSValue.vArr 0 [JSValue.vNum 1, JSValue.vNum 2, JSValue.vStr "x"]) ""
      = .ok (some (.msg "Expected type number but received string"))
    ∧ errCtx (createArrayValidator (Spec.typeName "number")
        (JSValue.vArr 0 [JSValue.vNum 1, JSValue.vNum 2, JSValue.vStr "x"]) "") = none := by
  constructor <;> rfl

/-- Claim C8 (amended): the array validator fails on every non-array value
with a pair-shaped array-type error at the given context; on an array it
validates elements in index order, invoking the element validator with the
path extended by the numeric index rendered as a string, and returns the first
failing element's error unmodified, never validating later elements — so the
error carries the extended path only when the element validator is
pair-returning. -/
theorem array_validates_in_index_order :
    (∀ s v c, isArray v = false →
      createArrayValidator s v c
        = .ok (some (.pair ("Expected type array but received " ++ typeOf v) c))) ∧
    (∀ s r (pre : List JSValue) x post (c : String) e,
      (∀ j (h : j < pre.length),
        ensureValidator s (pre.get ⟨j, h⟩) (contextExtend c (Nat.repr j)) = .ok none) →
      ensureValidator s x (contextExtend c (Nat.repr pre.length)) = .ok (some e) →
      createArrayValidator s (JSValue.vArr r (pre ++ x :: post)) c = .ok (some e)) := by
  constructor
  · intro s v c h
    have h1 : createArrayValidator s v c = arrayCore (ensureValidator s) v c := rfl
    rw [h1]
    simp [arrayCore, h]
  · intro s r pre x post c e hpre hx
    have h1 : createArrayValidator s (JSValue.vArr r (pre ++ x :: post)) c
        = arrayCore (ensureValidator s) (JSValue.vArr r (pre ++ x :: post)) c := rfl
    rw [h1, arrayCore_arr]
    exact arrayElemsLoop_append (ensureValidator s) pre x post 0 c e
      (by intro j hj; simpa using hpre j hj)
      (by simpa using hx)

/-- Claim C8 witness: spec `"number"` on `[1, 2, "x"]` under root context
`"root"`: indices 0 and 1 pass, index 2 fails and its error is returned. -/
theorem array_validates_in_index_order_witness :
    createArrayValidator (Spec.typeName "number")
        (JSValue.vArr 1 [JSValue.vNum 1, JSValue.vNum 2, JSValue.vStr "x"]) "root"
      = .ok (some (.msg "Expected type number but received string")) :=
  array_validates_in_index_order.2 (Spec.typeName "number") 1
    [JSValue.vNum 1, JSValue.vNum 2] (JSValue.vStr "x") [] "root" _
    (by intro j hj
        rcases j with _ | _ | j
        · rfl
        · rfl
        · simp only [List.length_cons, List.length_nil] at hj
          omega)
    (by rfl)

/-- Claim C9: the type validator succeeds exactly when the value's primitive
runtime type tag (`typeof`) equals the expected type name; in particular
`"x"` passes the spec `"string"` and `42` fails it. -/
theorem typeValidator_succeeds_iff_typeof :
    (∀ t v, createTypeValidator t v = none ↔ jsTypeof v = t) ∧
    createTypeValidator "string" (JSValue.vStr "x") = none ∧
    (createTypeValidator "string" (JSValue.vNum 42)).isSome = true := by
  refine ⟨?_, rfl, rfl⟩
  intro t v
  by_cases h : jsTypeof v = t <;> simp [createTypeValidator, h]

/-- Claim C10: the union-of validator over the empty spec list fails every
value with exactly the aggregation header (no alternative lines), paired with
the given context. -/
theorem emptyUnion_fails_with_header_only (v : JSValue) (c : String) :
    createUnionOfValidator [] v c
      = .ok (some (.pair "Expected the value to pass one of the provided validators:\n" c)) := by
  have h1 : createUnionOfValidator [] v c
      = .ok (some (.pair ("Expected the value to pass one of the provided validators:\n"
          ++ String.intercalate "\n" []) c)) := rfl
  rw [h1]
  simp [String.intercalate]

end ArgTypes
